import Mathlib

set_option maxRecDepth 16000

attribute [local semireducible] Rat.mul Rat.add Rat.inv Rat.sub Rat.ofScientific

/-!
Verification development for the valr-relending-serverless loan-rebalancing
engine.  The TypeScript sources are shallowly embedded: JS numbers are
modelled as exact rationals (the IEEE-754 double rounding of intermediate
results is outside this model and is treated separately), records become
association lists, thrown exceptions become `Except`, and the retry loop of
the transport becomes a fuel-indexed recursion over an oracle of attempt
outcomes.
-/

/-- Decidable equality for `Except`, used to evaluate the embedded fallible
operations on concrete inputs. -/
instance instDecEqExcept {ε α : Type} [DecidableEq ε] [DecidableEq α] :
    DecidableEq (Except ε α)
  | .error e, .error f =>
    if h : e = f then .isTrue (by rw [h]) else .isFalse (by intro hc; cases hc; exact h rfl)
  | .error _, .ok _ => .isFalse (by intro hc; cases hc)
  | .ok _, .error _ => .isFalse (by intro hc; cases hc)
  | .ok a, .ok b =>
    if h : a = b then .isTrue (by rw [h]) else .isFalse (by intro hc; cases hc; exact h rfl)

namespace Valr

/-- JS `Math.round`: round half toward positive infinity. -/
def jsRound (q : ℚ) : ℤ := ⌊q + 1/2⌋

/-- Characters treated as leading whitespace by JS `parseFloat`. -/
def jsWhitespaceChar (c : Char) : Bool :=
  c = ' ' || c = '\t' || c = '\n' || c = '\r' || c = '\x0b' || c = '\x0c'

/-- Numeric value of a list of decimal digit characters. -/
def digitsVal (ds : List Char) : ℕ :=
  ds.foldl (fun a c => 10 * a + (c.toNat - 48)) 0

/-- Leading decimal digits of a character list, and the rest. -/
def spanDigits (cs : List Char) : List Char × List Char :=
  (cs.takeWhile Char.isDigit, cs.dropWhile Char.isDigit)

/-- Optional sign at the head of the input, as a rational factor. -/
def readSign (cs : List Char) : ℚ × List Char :=
  match cs with
  | c :: t => if c = '+' then (1, t) else if c = '-' then (-1, t) else (1, c :: t)
  | [] => (1, [])

/-- Unsigned decimal mantissa `Digits [. Digits]` or `. Digits`, longest
prefix; `none` when no digit is found (JS `NaN`). -/
def readMantissa (cs : List Char) : Option (ℚ × List Char) :=
  let p := spanDigits cs
  match p.2 with
  | '.' :: r2 =>
    let f := spanDigits r2
    if p.1 = [] ∧ f.1 = [] then none
    else some ((digitsVal p.1 : ℚ) + (digitsVal f.1 : ℚ) / 10 ^ f.1.length, f.2)
  | _ => if p.1 = [] then none else some ((digitsVal p.1 : ℚ), p.2)

/-- Optional exponent part `e[+|-]Digits` directly after the mantissa;
contributes `0` when absent or malformed (JS consumes it only when valid). -/
def readExponent (cs : List Char) : ℤ :=
  match cs with
  | e :: cs2 =>
    if e = 'e' ∨ e = 'E' then
      let sp : ℤ × List Char :=
        match cs2 with
        | '+' :: t => (1, t)
        | '-' :: t => (-1, t)
        | t => (1, t)
      let ds := spanDigits sp.2
      if ds.1 = [] then 0 else sp.1 * (digitsVal ds.1 : ℤ)
    else 0
  | [] => 0

/-- JS `parseFloat`: skip whitespace, optional sign, longest numeric prefix
(the `Infinity` literal, irrelevant here, is not modelled); `none` is `NaN`.
The result is the exactly parsed rational; double rounding is outside the
model. -/
def jsParseFloat (s : String) : Option ℚ :=
  let cs := s.toList.dropWhile jsWhitespaceChar
  let sg := readSign cs
  match readMantissa sg.2 with
  | none => none
  | some qr => some (sg.1 * qr.1 * (10 : ℚ) ^ readExponent qr.2)

/-- The `Decimal` class of `src/utils/decimal.ts`: a value held as
`Math.round(x * 10^scale)` in the private `value` field. -/
structure Decimal where
  value : ℤ
  scale : ℕ
  deriving DecidableEq

/-- The numeric branch of the `Decimal` constructor:
`this.value = Math.round(value * multiplier)`. -/
def Decimal.ofNum (x : ℚ) (scale : ℕ) : Decimal :=
  ⟨jsRound (x * 10 ^ scale), scale⟩

/-- The string branch of the `Decimal` constructor: `parseFloat`, throw on
`NaN`, else round to the scaled integer unit. -/
def Decimal.ofString (s : String) (scale : ℕ) : Except String Decimal :=
  match jsParseFloat s with
  | none => .error ("Invalid decimal value: " ++ s)
  | some q => .ok (Decimal.ofNum q scale)

/-- `Decimal.prototype.add`, throwing on scale mismatch. -/
def Decimal.add (a b : Decimal) : Except String Decimal :=
  if a.scale ≠ b.scale then .error "Cannot add decimals with different scales"
  else .ok ⟨a.value + b.value, a.scale⟩

/-- `Decimal.prototype.multiply`: `Math.round(this.value * factor)` at the
same scale. -/
def Decimal.multiply (a : Decimal) (factor : ℚ) : Decimal :=
  ⟨jsRound ((a.value : ℚ) * factor), a.scale⟩

/-- `Decimal.prototype.isLessThan`, throwing on scale mismatch. -/
def Decimal.isLessThan (a b : Decimal) : Except String Bool :=
  if a.scale ≠ b.scale then .error "Cannot compare decimals with different scales"
  else .ok (decide (a.value < b.value))

/-- `Decimal.prototype.toNumber`: `value / 10^scale`, exactly. -/
def Decimal.toNumber (d : Decimal) : ℚ :=
  (d.value : ℚ) / 10 ^ d.scale

/-- `Decimal.prototype.truncateToDecimalPlaces`:
`Math.floor(num * 10^places) / 10^places`, re-wrapped through the
constructor.  The `toFixed(places)` text of `truncated` re-parses to exactly
`truncated` (it has at most `places` fractional digits), so the string
round-trip collapses to `ofNum`. -/
def Decimal.truncateToDecimalPlaces (d : Decimal) (decimalPlaces : ℕ) : Decimal :=
  let num := d.toNumber
  let truncated : ℚ := (⌊num * 10 ^ decimalPlaces⌋ : ℚ) / 10 ^ decimalPlaces
  Decimal.ofNum truncated d.scale

/-- Digit string of `n` left-padded with zeros to at least `len` characters. -/
def padLeftZeros (n : ℕ) (len : ℕ) : List Char :=
  let ds := (Nat.repr n).toList
  List.replicate (len - ds.length) '0' ++ ds

/-- The trailing-zero strip `replace(/\.?0+$/, '')` of `toString`: remove the
maximal trailing run of zeros together with a decimal point immediately
before it. -/
def stripTrailingZeros (s : String) : String :=
  let rs := s.toList.reverse
  let zs := rs.takeWhile (fun c => c = '0')
  if zs = [] then s
  else
    let rest := rs.dropWhile (fun c => c = '0')
    let rest2 := match rest with
      | '.' :: t => t
      | t => t
    ⟨rest2.reverse⟩

/-- `Decimal.prototype.toString`: `toNumber().toFixed(scale)` (exact here,
since the value has exactly `scale` fractional digits) with trailing zeros
stripped. -/
def Decimal.toString (d : Decimal) : String :=
  let sign := if d.value < 0 then "-" else ""
  let ds := padLeftZeros d.value.natAbs (d.scale + 1)
  let fixed :=
    if d.scale = 0 then ds
    else ds.take (ds.length - d.scale) ++ '.' :: ds.drop (ds.length - d.scale)
  stripTrailingZeros (sign ++ (⟨fixed⟩ : String))

/-- `parseFinancialAmount` helper (the default scale 8 is passed explicitly
at every call site of this development). -/
def parseFinancialAmount (value : String) (scale : ℕ) : Except String Decimal :=
  Decimal.ofString value scale

/-- `calculateIncrease` of `src/utils/decimal.ts`: the `_current` loan total
is ignored; the result is the minimum of the available balance and
`available × ratio`. -/
def calculateIncrease (_current available : String) (ratio : ℚ) (scale : ℕ) :
    Except String Decimal :=
  match parseFinancialAmount available scale with
  | .error e => .error e
  | .ok availableDecimal =>
    let maxIncrease := availableDecimal.multiply ratio
    match availableDecimal.isLessThan maxIncrease with
    | .error e => .error e
    | .ok lt => .ok (if lt then availableDecimal else maxIncrease)

/-! Planner layer, from `src/functions/manage-loans.ts`. -/

/-- `Subaccount` of `src/types/valr.ts`. -/
structure Subaccount where
  id : String
  label : String
  deriving DecidableEq

/-- `SubaccountBalance` of `src/types/valr.ts` (the planner reads only
`currency` and `available`). -/
structure SubaccountBalance where
  currency : String
  available : String
  reserved : String
  total : String
  deriving DecidableEq

/-- `OpenLoan` of `src/types/valr.ts` (the planner reads `loanId`,
`currency` and `totalAmount`). -/
structure OpenLoan where
  loanId : String
  currency : String
  totalAmount : String
  usedAmount : String
  deriving DecidableEq

/-- `LoanManagementConfig`: string records become association lists. -/
structure LoanManagementConfig where
  minIncrementAmount : List (String × String)
  currencyDecimalPlaces : List (String × ℕ)
  maxLoanRatio : ℚ
  dryRun : Bool

/-- `PlannedLoanIncrease` of `src/types/valr.ts` (the optional unused
`priority` field is omitted). -/
structure PlannedLoanIncrease where
  subaccountId : String
  subaccountLabel : String
  loanId : String
  currency : String
  currentAmount : String
  increaseAmount : String
  newAmount : String
  deriving DecidableEq

/-- JS object lookup `record[key]`. -/
def recordGet {α : Type} (r : List (String × α)) (key : String) : Option α :=
  (r.find? (fun p => p.1 = key)).map (fun p => p.2)

/-- JS `record[key] || fallback` on strings: `undefined` and the empty
string are falsy. -/
def jsOrString (v : Option String) (fallback : String) : String :=
  match v with
  | none => fallback
  | some s => if s = "" then fallback else s

/-- JS `record[key] || fallback` on numbers: `undefined` and `0` are falsy,
so a configured `0` is replaced by the fallback. -/
def jsOrNat (v : Option ℕ) (fallback : ℕ) : ℕ :=
  match v with
  | none => fallback
  | some n => if n = 0 then fallback else n

/-- The `balances.reduce` accumulator of `planSubaccountIncreases`: later
entries for the same currency overwrite earlier ones. -/
def buildAvailableBalances (balances : List SubaccountBalance) : String → Option String :=
  balances.foldl (fun acc b => fun c => if c = b.currency then some b.available else acc c)
    (fun _ => none)

/-- Body of the per-loan `try` block of `planSubaccountIncreases`
(`src/functions/manage-loans.ts` lines 46-95): `.error` is a thrown
exception, `.ok none` a `continue`, `.ok (some _)` a pushed plan entry. -/
def planLoan (subaccount : Subaccount) (config : LoanManagementConfig)
    (availableBalances : String → Option String) (loan : OpenLoan) :
    Except String (Option PlannedLoanIncrease) :=
  let currency := loan.currency
  let availableAmountStr := jsOrString (availableBalances currency) "0"
  let minIncrementStr := jsOrString (recordGet config.minIncrementAmount currency) "0"
  match parseFinancialAmount availableAmountStr 8 with
  | .error e => .error e
  | .ok availableAmount =>
  match parseFinancialAmount minIncrementStr 8 with
  | .error e => .error e
  | .ok minIncrement =>
  match parseFinancialAmount loan.totalAmount 8 with
  | .error e => .error e
  | .ok currentQuantity =>
  match availableAmount.isLessThan minIncrement with
  | .error e => .error e
  | .ok tooSmall =>
  if tooSmall then .ok none
  else
  match calculateIncrease loan.totalAmount availableAmountStr config.maxLoanRatio 8 with
  | .error e => .error e
  | .ok actualIncrease =>
  match actualIncrease.isLessThan minIncrement with
  | .error e => .error e
  | .ok increaseTooSmall =>
  if increaseTooSmall then .ok none
  else
  let decimalPlaces := jsOrNat (recordGet config.currencyDecimalPlaces currency) 8
  let truncatedIncrease := actualIncrease.truncateToDecimalPlaces decimalPlaces
  let truncatedIncreaseAmount := truncatedIncrease.toString
  match currentQuantity.add truncatedIncrease with
  | .error e => .error e
  | .ok newQuantity =>
  .ok (some {
    subaccountId := subaccount.id
    subaccountLabel := subaccount.label
    loanId := loan.loanId
    currency := currency
    currentAmount := currentQuantity.toString
    increaseAmount := truncatedIncreaseAmount
    newAmount := newQuantity.toString })

/-- The loan loop of `planSubaccountIncreases`: a thrown error for one loan
is caught (and logged) and the loop continues with the next loan. -/
def planLoansLoop (subaccount : Subaccount) (config : LoanManagementConfig)
    (availableBalances : String → Option String) (acc : List PlannedLoanIncrease) :
    List OpenLoan → List PlannedLoanIncrease
  | [] => acc
  | loan :: rest =>
    match planLoan subaccount config availableBalances loan with
    | .ok (some p) => planLoansLoop subaccount config availableBalances (acc ++ [p]) rest
    | .ok none => planLoansLoop subaccount config availableBalances acc rest
    | .error _ => planLoansLoop subaccount config availableBalances acc rest

/-- `planSubaccountIncreases` (given the fetched balances and open loans):
builds the available-balance record, then plans each loan with per-loan
fault isolation. -/
def planSubaccountIncreases (subaccount : Subaccount) (config : LoanManagementConfig)
    (balances : List SubaccountBalance) (openLoans : List OpenLoan) :
    List PlannedLoanIncrease :=
  planLoansLoop subaccount config (buildAvailableBalances balances) [] openLoans

/-! Signed transport layer, from the retry-capable `ValrClient`
(`src/unnamed/part_001` lines 106-321) and, for the superseded logging
behaviour, `src/utils/valr-client.ts`. -/

/-- JS `parseInt` at radix 10: skip whitespace, optional sign, longest
digit prefix; `none` is `NaN`. -/
def jsParseInt (s : String) : Option ℤ :=
  let cs := s.toList.dropWhile jsWhitespaceChar
  let sp : ℤ × List Char :=
    match cs with
    | '+' :: t => (1, t)
    | '-' :: t => (-1, t)
    | t => (1, t)
  let ds := spanDigits sp.2
  if ds.1 = [] then none else some (sp.1 * (digitsVal ds.1 : ℤ))

/-- JS truthiness of a number-or-null: `null`, `0` (and `NaN`, which the
header parse below already collapses to `none`) are falsy. -/
def jsTruthy (v : Option ℤ) : Bool :=
  match v with
  | none => false
  | some k => decide (k ≠ 0)

/-- `retryAfter ? parseInt(retryAfter) : null` on a header value: an absent
or empty header is falsy and yields `null`; a `NaN` parse is collapsed to
`none` as well (both are falsy and never read otherwise). -/
def parseHeaderInt (h : Option String) : Option ℤ :=
  match h with
  | none => none
  | some s => if s = "" then none else jsParseInt s

/-- The `rateLimitInfo` object attached to a 429 error. -/
structure RateLimitInfo where
  retryAfter : Option ℤ
  rateLimitReset : Option ℤ
  rateLimitRemaining : Option ℤ
  deriving DecidableEq

/-- The body object `error.response.data` of a failed request: the client
only ever inspects a numeric `code` field and a `message` field; `raw`
stands for the rest of the body text, which the retry-capable client never
reads. -/
structure ResponseBody where
  code : Option ℤ
  message : Option String
  raw : String
  deriving DecidableEq

/-- A non-2xx HTTP response: status, optional body, and the rate-limit
headers. -/
structure HttpResponse where
  status : ℕ
  data : Option ResponseBody
  retryAfterHeader : Option String
  rateLimitResetHeader : Option String
  rateLimitRemainingHeader : Option String
  deriving DecidableEq

/-- How a single low-level attempt ended: a 2xx payload, a non-2xx
response, or a network failure with no response. -/
inductive RequestOutcome (α : Type) where
  | ok (v : α)
  | httpError (resp : HttpResponse)
  | networkFailure
  deriving DecidableEq

/-- The classified errors thrown by `makeRequest`: each variant carries
exactly the data its `Error` message exposes. -/
inductive ValrError where
  | rateLimited (info : RateLimitInfo)
  | apiCode (code : ℤ) (message : String)
  | unauthorized
  | invalidRequest
  | serviceUnavailable
  | networkError
  deriving DecidableEq

/-- The `Error.message` text of each classified error, exactly as thrown
by the source. -/
def errorMessage : ValrError → String
  | .rateLimited _ => "VALR API Error: Rate limit exceeded"
  | .apiCode c m =>
    "VALR API Error: \x7b\"code\":" ++ Int.repr c ++ ",\"message\":\"" ++ m ++ "\"\x7d"
  | .unauthorized => "VALR API Error: Unauthorized access"
  | .invalidRequest => "VALR API Error: Invalid request"
  | .serviceUnavailable => "VALR API Error: Service unavailable"
  | .networkError => "Request failed: Network or service error"

/-- JS truthiness test `apiData.code && typeof apiData.code === 'number'`:
a missing or zero `code` is falsy. -/
def hasTruthyCode (body : ResponseBody) : Bool :=
  jsTruthy body.code

/-- Error classification of the retry-capable `makeRequest`
(`src/unnamed/part_001` lines 200-240) for a non-2xx response: 429 first
(headers parsed into `rateLimitInfo`), then a truthy numeric body `code`,
then 401/403, other 4xx, and 5xx. -/
def classifyResponse (resp : HttpResponse) : ValrError :=
  if resp.status = 429 then
    .rateLimited {
      retryAfter := parseHeaderInt resp.retryAfterHeader
      rateLimitReset := parseHeaderInt resp.rateLimitResetHeader
      rateLimitRemaining := parseHeaderInt resp.rateLimitRemainingHeader }
  else
    match resp.data with
    | some body =>
      if hasTruthyCode body then
        .apiCode (body.code.getD 0) (jsOrString body.message "Unknown error")
      else if resp.status = 401 ∨ resp.status = 403 then .unauthorized
      else if 400 ≤ resp.status ∧ resp.status < 500 then .invalidRequest
      else .serviceUnavailable
    | none =>
      if resp.status = 401 ∨ resp.status = 403 then .unauthorized
      else if 400 ≤ resp.status ∧ resp.status < 500 then .invalidRequest
      else .serviceUnavailable

/-- The retry-capable `makeRequest` as a function of the attempt's raw
outcome: a 2xx payload is returned, a response failure is classified and
thrown, and the no-response case throws the generic network error. -/
def makeRequest (outcome : RequestOutcome α) : Except ValrError α :=
  match outcome with
  | .ok v => .ok v
  | .httpError resp => .error (classifyResponse resp)
  | .networkFailure => .error .networkError

/-- The sanitized failure log record of the retry-capable client: method,
endpoint, status, a boolean had-body flag, the caught error's message and a
timestamp — the body itself is never logged. -/
structure SanitizedFailureLog where
  method : String
  endpoint : String
  status : Option ℕ
  hasResponseData : Bool
  message : String
  timestamp : String
  deriving DecidableEq

/-- `console.error('VALR API request failed:', …)` of the retry-capable
client (`src/unnamed/part_001` lines 191-198). -/
def sanitizedFailureLog (method endpoint : String) (outcome : RequestOutcome α)
    (axiosMessage timestamp : String) : Option SanitizedFailureLog :=
  match outcome with
  | .ok _ => none
  | .httpError resp =>
    some ⟨method, endpoint, some resp.status, resp.data.isSome, axiosMessage, timestamp⟩
  | .networkFailure => some ⟨method, endpoint, none, false, axiosMessage, timestamp⟩

/-- The failure log record of the superseded client in
`src/utils/valr-client.ts`: it logs `data: error.response?.data` — the raw
response body — alongside method, endpoint, status and message. -/
structure LegacyFailureLog where
  method : String
  endpoint : String
  status : Option ℕ
  data : Option ResponseBody
  message : String
  deriving DecidableEq

/-- `console.error('VALR API request failed:', …)` of
`src/utils/valr-client.ts` lines 80-86. -/
def legacyFailureLog (method endpoint : String) (outcome : RequestOutcome α)
    (axiosMessage : String) : Option LegacyFailureLog :=
  match outcome with
  | .ok _ => none
  | .httpError resp => some ⟨method, endpoint, some resp.status, resp.data, axiosMessage⟩
  | .networkFailure => some ⟨method, endpoint, none, none, axiosMessage⟩

/-- `DEFAULT_RETRY_ATTEMPTS` of `constants/currency-defaults.ts`. -/
def DEFAULT_RETRY_ATTEMPTS : ℕ := 3

/-- `MIN_RETRY_DELAY_MS` of `constants/currency-defaults.ts`. -/
def MIN_RETRY_DELAY_MS : ℤ := 1000

/-- `MAX_RETRY_DELAY_MS` of `constants/currency-defaults.ts`. -/
def MAX_RETRY_DELAY_MS : ℤ := 30000

/-- `MAIN_ACCOUNT_ID` of `constants/currency-defaults.ts`. -/
def MAIN_ACCOUNT_ID : String := "0"

/-- The subaccount id that actually enters the header and the signature:
only when present, non-empty and different from the main account id. -/
def effectiveSubaccountId (subaccountId : Option String) : Option String :=
  match subaccountId with
  | none => none
  | some s => if s = "" ∨ s = MAIN_ACCOUNT_ID then none else some s

/-- `createSignature`'s input: `timestamp + method + path + body`, with the
subaccount id appended when present.  The source then applies HMAC-SHA512
with the API secret to this payload; the hash itself is outside the model,
the payload is what varies between attempts. -/
def createSignaturePayload (timestamp method path body : String)
    (subaccountId : Option String) : String :=
  timestamp ++ method ++ path ++ body ++
    (match subaccountId with
     | some s => s
     | none => "")

/-- One outbound request as prepared by the axios interceptor: a fresh
timestamp is read immediately before send and enters both the header and
the signature payload. -/
structure SignedRequest where
  timestamp : ℤ
  method : String
  path : String
  body : String
  subaccountId : Option String
  signaturePayload : String
  deriving DecidableEq

/-- The interceptor of the client constructor: stamp the request with the
current time and sign it. -/
def signRequest (method path body : String) (subaccountId : Option String)
    (t : ℤ) : SignedRequest :=
  ⟨t, method, path, body, effectiveSubaccountId subaccountId,
    createSignaturePayload (Int.repr t) method path body
      (effectiveSubaccountId subaccountId)⟩

/-- The 429 retry condition of `makeRequestWithRetry`:
`error.message?.includes('Rate limit exceeded') && error.rateLimitInfo` —
only the 429 path both produces that message and attaches `rateLimitInfo`,
so the condition holds exactly for the `rateLimited` variant. -/
def isRetryableRateLimit : ValrError → Bool
  | .rateLimited _ => true
  | _ => false

/-- The wait-time computation of `makeRequestWithRetry`
(`src/unnamed/part_001` lines 262-276): a truthy `Retry-After` wins, else a
truthy rate-limit reset clamped below by the minimum delay, else
exponential backoff `MIN * 2^attempt` capped at `MAX`. -/
def computeWaitTime (info : RateLimitInfo) (now : ℤ) (attempt : ℕ) : ℤ :=
  if jsTruthy info.retryAfter then (info.retryAfter.getD 0) * 1000
  else if jsTruthy info.rateLimitReset then
    max ((info.rateLimitReset.getD 0) * 1000 - now) MIN_RETRY_DELAY_MS
  else min (MIN_RETRY_DELAY_MS * 2 ^ attempt) MAX_RETRY_DELAY_MS

/-- What a whole `makeRequestWithRetry` call did: the surfaced result, the
sleeps performed, and the signed requests issued, in order. -/
structure RetryTrace (α : Type) where
  result : Except ValrError α
  waits : List ℤ
  requests : List SignedRequest
  deriving DecidableEq

/-- The retry loop of `makeRequestWithRetry` (`src/unnamed/part_001` lines
243-293).  `retriesLeft` is `maxRetries - attempt`, so `retriesLeft > 0` is
the loop's `attempt < maxRetries` guard; `outcomes i` is the raw outcome of
the `i`-th attempt and `now i`/`sendTime i` the clock readings at its
failure handling and at its send.  Only a rate-limit error with retries
left waits and retries; any other error (and an exhausted budget) surfaces
the last error. -/
def retryLoop (method path body : String) (subaccountId : Option String)
    (outcomes : ℕ → RequestOutcome α) (now sendTime : ℕ → ℤ) :
    (attempt : ℕ) → (retriesLeft : ℕ) → RetryTrace α
  | attempt, retriesLeft =>
    let req := signRequest method path body subaccountId (sendTime attempt)
    match makeRequest (outcomes attempt), retriesLeft with
    | .ok v, _ => ⟨.ok v, [], [req]⟩
    | .error (.rateLimited info), r + 1 =>
      let w := computeWaitTime info (now attempt) attempt
      let t := retryLoop method path body subaccountId outcomes now sendTime (attempt + 1) r
      ⟨t.result, w :: t.waits, req :: t.requests⟩
    | .error e, _ => ⟨.error e, [], [req]⟩

/-- `makeRequestWithRetry` with `maxRetries` total retries after the first
attempt. -/
def makeRequestWithRetry (method path body : String) (subaccountId : Option String)
    (outcomes : ℕ → RequestOutcome α) (now sendTime : ℕ → ℤ) (maxRetries : ℕ) :
    RetryTrace α :=
  retryLoop method path body subaccountId outcomes now sendTime 0 maxRetries

/-! Sequential executor, from `executeIncrease` and `executeSequentially`
of `src/functions/manage-loans.ts`.  The wall-clock `executedAt` and
`durationMs` fields of `ExecutionResult` are omitted; the claims concern
the planned increase, the success flag and the error text. -/

/-- How the single `client.increaseLoan` call of one execution would end if
made: it returns, or it throws with a message. -/
inductive CallOutcome where
  | ok
  | throwErr (message : String)
  deriving DecidableEq

/-- The mutating transport call issued by `executeIncrease`: a PUT to the
loan-increase endpoint with the `UpdateLoanRequest` fields built from the
planned increase. -/
structure TransportCall where
  subaccountId : String
  currencySymbol : String
  increaseLoanAmountBy : String
  loanId : String
  deriving DecidableEq

/-- `ExecutionResult` without the wall-clock fields. -/
structure ExecResult where
  plannedIncrease : PlannedLoanIncrease
  success : Bool
  error : Option String
  deriving DecidableEq

/-- The `UpdateLoanRequest` built by `executeIncrease`
(`currencySymbol`, `increaseLoanAmountBy`, `loanId`). -/
def increaseLoanCall (p : PlannedLoanIncrease) : TransportCall :=
  ⟨p.subaccountId, p.currency, p.increaseAmount, p.loanId⟩

/-- The error string recorded when executing one increase throws. -/
def executionErrorMessage (p : PlannedLoanIncrease) (m : String) : String :=
  "Failed to execute increase for loan " ++ p.loanId ++ ": " ++ m

/-- `executeIncrease` (`src/functions/manage-loans.ts` lines 115-170): in
dry-run mode a success result is synthesized and no transport call is
issued; otherwise the loan-increase call is made, and a thrown error is
caught and recorded as a failed result. -/
def executeIncrease (dryRun : Bool) (p : PlannedLoanIncrease)
    (callOutcome : CallOutcome) : ExecResult × List TransportCall :=
  if dryRun then (⟨p, true, none⟩, [])
  else
    match callOutcome with
    | .ok => (⟨p, true, none⟩, [increaseLoanCall p])
    | .throwErr m =>
      (⟨p, false, some (executionErrorMessage p m)⟩, [increaseLoanCall p])

/-- The loop of `executeSequentially`: one increase in flight at a time, a
failed result logged and the queue continued. -/
def executeLoop (dryRun : Bool) (callOutcomes : ℕ → CallOutcome) :
    ℕ → List PlannedLoanIncrease → List ExecResult × List TransportCall
  | _, [] => ([], [])
  | i, p :: rest =>
    let step := executeIncrease dryRun p (callOutcomes i)
    let tail := executeLoop dryRun callOutcomes (i + 1) rest
    (step.1 :: tail.1, step.2 ++ tail.2)

/-- `executeSequentially` (`src/functions/manage-loans.ts` lines 241-289)
over the plan's increases, with `callOutcomes i` the fate the `i`-th
mutating call would have if issued. -/
def executeSequentially (dryRun : Bool) (plan : List PlannedLoanIncrease)
    (callOutcomes : ℕ → CallOutcome) : List ExecResult × List TransportCall :=
  executeLoop dryRun callOutcomes 0 plan

/-- The per-subaccount rollup of the handler (`src/functions/manage-loans.ts`
lines 392-416): processed count, increased count, and the error strings of
the failed results (`r.error || 'Unknown error'`). -/
def summaryCounts (results : List ExecResult) : ℕ × ℕ × List String :=
  (results.length,
   (results.filter (fun r => r.success)).length,
   (results.filter (fun r => !r.success)).map (fun r => jsOrString r.error "Unknown error"))

/-! Spec-side definition for claim C9: a decimal numeral is an optional
sign followed by digits with at most one decimal point — and nothing
else. -/

/-- Whether a whole string is a valid decimal numeral: optional sign, then
`Digits [. Digits]` or `. Digits`, with no further characters. -/
def isValidDecimalNumeral (s : String) : Bool :=
  match readMantissa (readSign s.toList).2 with
  | none => false
  | some qr => qr.2.isEmpty

/-! Helper lemmas about the fixed-point arithmetic. -/

theorem jsRound_intCast (k : ℤ) : jsRound (k : ℚ) = k := by
  unfold jsRound
  rw [show ((k : ℚ) + 1 / 2) = (k : ℤ) + (1 / 2 : ℚ) by norm_num,
    Int.floor_int_add]
  norm_num

theorem jsRound_mono {a b : ℚ} (h : a ≤ b) : jsRound a ≤ jsRound b :=
  Int.floor_mono (by linarith)

theorem ofNum_of_mul_eq_intCast {x : ℚ} {s : ℕ} {k : ℤ} (h : x * 10 ^ s = k) :
    Decimal.ofNum x s = ⟨k, s⟩ := by
  unfold Decimal.ofNum
  rw [h, jsRound_intCast]

theorem ofNum_toNumber_of_mul_eq_intCast {x : ℚ} {s : ℕ} {k : ℤ}
    (h : x * 10 ^ s = k) : (Decimal.ofNum x s).toNumber = x := by
  rw [ofNum_of_mul_eq_intCast h]
  show (k : ℚ) / 10 ^ s = x
  rw [← h]
  field_simp

theorem parseFinancialAmount_ok_scale {s : String} {n : ℕ} {d : Decimal}
    (h : parseFinancialAmount s n = .ok d) : d.scale = n := by
  unfold parseFinancialAmount Decimal.ofString at h
  cases hq : jsParseFloat s <;> rw [hq] at h
  · exact absurd h (by intro hc; cases hc)
  · cases h
    rfl

/-- The truncated value is exactly `⌊toNumber * 10^n⌋ / 10^n`: the string
round-trip through the constructor is lossless. -/
theorem truncate_toNumber (d : Decimal) (n : ℕ) :
    (d.truncateToDecimalPlaces n).toNumber
      = (⌊d.toNumber * 10 ^ n⌋ : ℚ) / 10 ^ n := by
  rcases le_or_lt n d.scale with hns | hsn
  · have hmul : (⌊d.toNumber * 10 ^ n⌋ : ℚ) / 10 ^ n * 10 ^ d.scale
        = ((⌊d.toNumber * 10 ^ n⌋ * 10 ^ (d.scale - n) : ℤ) : ℚ) := by
      push_cast
      rw [show d.scale = n + (d.scale - n) by omega, pow_add]
      have h10n : (10 : ℚ) ^ n ≠ 0 := by positivity
      field_simp
      ring
    simp only [Decimal.truncateToDecimalPlaces]
    exact ofNum_toNumber_of_mul_eq_intCast hmul
  · have hcast : d.toNumber * 10 ^ n = ((d.value * 10 ^ (n - d.scale) : ℤ) : ℚ) := by
      push_cast
      unfold Decimal.toNumber
      rw [show n = d.scale + (n - d.scale) by omega, pow_add]
      have h10s : (10 : ℚ) ^ d.scale ≠ 0 := by positivity
      field_simp
      ring
    have hfloor : ⌊d.toNumber * 10 ^ n⌋ = d.value * 10 ^ (n - d.scale) := by
      rw [hcast, Int.floor_intCast]
    have hval : (⌊d.toNumber * 10 ^ n⌋ : ℚ) / 10 ^ n = d.toNumber := by
      rw [hfloor, ← hcast]
      have h10n : (10 : ℚ) ^ n ≠ 0 := by positivity
      field_simp
    have hmul : (⌊d.toNumber * 10 ^ n⌋ : ℚ) / 10 ^ n * 10 ^ d.scale = (d.value : ℚ) := by
      rw [hval]
      unfold Decimal.toNumber
      have h10s : (10 : ℚ) ^ d.scale ≠ 0 := by positivity
      field_simp
    simp only [Decimal.truncateToDecimalPlaces]
    rw [ofNum_toNumber_of_mul_eq_intCast hmul, hval]

/-! Claims. -/

/-- C3: `truncateToPlaces(a, n)` never exceeds `a` in value, its result has
at most `n` fractional digits (the value times `10^n` is an integer), and
`truncateToPlaces(parse("1.23999"), 2)` equals `parse("1.23")`, not
`parse("1.24")` — floor truncation, never rounding up. -/
theorem claim_C3_truncation :
    (∀ (a : Decimal) (n : ℕ),
      (a.truncateToDecimalPlaces n).toNumber ≤ a.toNumber ∧
      ∃ k : ℤ, (a.truncateToDecimalPlaces n).toNumber * 10 ^ n = k) ∧
    (∃ a b : Decimal, parseFinancialAmount "1.23999" 8 = .ok a ∧
      parseFinancialAmount "1.23" 8 = .ok (a.truncateToDecimalPlaces 2) ∧
      parseFinancialAmount "1.24" 8 = .ok b ∧
      a.truncateToDecimalPlaces 2 ≠ b) := by
  constructor
  · intro a n
    have hpos : (0 : ℚ) < 10 ^ n := by positivity
    constructor
    · rw [truncate_toNumber]
      have h1 : (⌊a.toNumber * 10 ^ n⌋ : ℚ) ≤ a.toNumber * 10 ^ n := Int.floor_le _
      have h2 : (⌊a.toNumber * 10 ^ n⌋ : ℚ) / 10 ^ n ≤ a.toNumber * 10 ^ n / 10 ^ n := by
        exact (div_le_div_iff_of_pos_right hpos).mpr h1
      calc (⌊a.toNumber * 10 ^ n⌋ : ℚ) / 10 ^ n
          ≤ a.toNumber * 10 ^ n / 10 ^ n := h2
        _ = a.toNumber := by field_simp
    · refine ⟨⌊a.toNumber * 10 ^ n⌋, ?_⟩
      rw [truncate_toNumber]
      field_simp
  · exact ⟨⟨123999000, 8⟩, ⟨124000000, 8⟩, by decide, by decide, by decide, by decide⟩

/-- C2 (code evaluated at the failing input): with a configured `ZAR`
decimal-places value of 0, the planner still truncates to 8 places — the
`|| 8` fallback treats the configured 0 as absent — and emits the increase
`5.75` for an exchange that accepts 0 decimals, although truncation to the
configured 0 places would give `5`. -/
theorem claim_C2_code_behavior :
    planSubaccountIncreases ⟨"S1", "Sub One"⟩ ⟨[("ZAR", "1")], [("ZAR", 0)], 1, false⟩
        [⟨"ZAR", "5.75", "0", "5.75"⟩] [⟨"L1", "ZAR", "100", "0"⟩]
      = [⟨"S1", "Sub One", "L1", "ZAR", "100", "5.75", "105.75"⟩] ∧
    recordGet ([("ZAR", 0)] : List (String × ℕ)) "ZAR" = some 0 ∧
    jsOrNat (recordGet ([("ZAR", 0)] : List (String × ℕ)) "ZAR") 8 = 8 ∧
    ((Decimal.mk 575000000 8).truncateToDecimalPlaces 0).toString = "5" := by
  refine ⟨by decide, by decide, by decide, by decide⟩

theorem ws_false_of_isDigit {c : Char} (h : c.isDigit = true) :
    jsWhitespaceChar c = false := by
  cases hb : jsWhitespaceChar c
  · rfl
  · exfalso
    unfold jsWhitespaceChar at hb
    simp only [Bool.or_eq_true, decide_eq_true_eq] at hb
    rcases hb with ((((h1 | h1) | h1) | h1) | h1) | h1 <;> subst h1 <;>
      exact absurd h (by decide)

theorem readSign_other {c : Char} (t : List Char) (h1 : c ≠ '+') (h2 : c ≠ '-') :
    readSign (c :: t) = (1, c :: t) := by
  simp only [readSign]
  rw [if_neg h1, if_neg h2]

theorem head_not_ws_of_mantissa {c : Char} {t : List Char} {x : ℚ × List Char}
    (h : readMantissa (c :: t) = some x) : jsWhitespaceChar c = false := by
  by_cases hd : c.isDigit
  · exact ws_false_of_isDigit hd
  · by_cases hdot : c = '.'
    · subst hdot; decide
    · exfalso
      have hdf : c.isDigit = false := by
        cases hb : c.isDigit
        · rfl
        · exact absurd hb hd
      have hspan : spanDigits (c :: t) = ([], c :: t) := by
        unfold spanDigits
        rw [List.takeWhile_cons, List.dropWhile_cons]
        simp [hdf]
      simp only [readMantissa, hspan] at h
      split at h
      · rename_i r2 heq
        exact hdot (List.cons.injEq .. ▸ heq).1
      · simp at h

theorem dropWhile_ws_of_mantissa {l : List Char} {x : ℚ × List Char}
    (h : readMantissa (readSign l).2 = some x) :
    l.dropWhile jsWhitespaceChar = l := by
  cases l with
  | nil => rfl
  | cons c t =>
    have hws : jsWhitespaceChar c = false := by
      by_cases h1 : c = '+'
      · subst h1; decide
      · by_cases h2 : c = '-'
        · subst h2; decide
        · rw [readSign_other t h1 h2] at h
          exact head_not_ws_of_mantissa h
    rw [List.dropWhile_cons, hws]
    simp

theorem jsParseFloat_isSome_of_valid {s : String}
    (h : isValidDecimalNumeral s = true) : ∃ q, jsParseFloat s = some q := by
  unfold isValidDecimalNumeral at h
  cases hm : readMantissa (readSign s.toList).2 with
  | none => rw [hm] at h; exact absurd h (by simp)
  | some qr =>
    have hdrop := dropWhile_ws_of_mantissa hm
    simp only [jsParseFloat]
    rw [hdrop, hm]
    exact ⟨_, rfl⟩

/-- C9 counterexample: strings that are not valid decimal numerals — one
with a second decimal point, one with a non-numeric suffix — are accepted
by `parse` (the longest numeric prefix is used) instead of raising
`InvalidAmount`. -/
theorem claim_C9_counterexample :
    isValidDecimalNumeral "1.2.3" = false ∧
    isValidDecimalNumeral "1.23abc" = false ∧
    parseFinancialAmount "1.2.3" 8 = .ok ⟨120000000, 8⟩ ∧
    parseFinancialAmount "1.23abc" 8 = .ok ⟨123000000, 8⟩ :=
  ⟨by decide, by decide, by decide, by decide⟩

/-- C9 (amended): `parse` accepts every valid decimal numeral, and it fails
with the `InvalidAmount` error exactly when `parseFloat` finds no numeric
prefix at all — not whenever the text is an invalid numeral. -/
theorem claim_C9_parse_failure (s : String) (n : ℕ) :
    (isValidDecimalNumeral s = true → ∃ d, parseFinancialAmount s n = .ok d) ∧
    ((∃ e, parseFinancialAmount s n = .error e) ↔ jsParseFloat s = none) := by
  constructor
  · intro h
    obtain ⟨q, hq⟩ := jsParseFloat_isSome_of_valid h
    refine ⟨Decimal.ofNum q n, ?_⟩
    unfold parseFinancialAmount Decimal.ofString
    rw [hq]
  · constructor
    · rintro ⟨e, he⟩
      unfold parseFinancialAmount Decimal.ofString at he
      cases hq : jsParseFloat s <;> rw [hq] at he
      simp at he
    · intro hq
      refine ⟨"Invalid decimal value: " ++ s, ?_⟩
      unfold parseFinancialAmount Decimal.ofString
      rw [hq]

/-- C9 witness: the valid numeral `"12.5"` parses successfully. -/
theorem claim_C9_witness : ∃ d, parseFinancialAmount "12.5" 8 = .ok d :=
  (claim_C9_parse_failure "12.5" 8).1 (by decide)

/-! Helper lemmas about the executor. -/

theorem executeIncrease_plannedIncrease (d : Bool) (p : PlannedLoanIncrease)
    (c : CallOutcome) : (executeIncrease d p c).1.plannedIncrease = p := by
  unfold executeIncrease
  cases d <;> cases c <;> rfl

theorem executeLoop_length (d : Bool) (co : ℕ → CallOutcome)
    (plan : List PlannedLoanIncrease) (i : ℕ) :
    (executeLoop d co i plan).1.length = plan.length := by
  induction plan generalizing i with
  | nil => rfl
  | cons p rest ih => simp [executeLoop, ih]

theorem executeLoop_get (d : Bool) (co : ℕ → CallOutcome)
    (plan : List PlannedLoanIncrease) (i j : ℕ) (h : j < plan.length)
    (h2 : j < (executeLoop d co i plan).1.length) :
    (executeLoop d co i plan).1.get ⟨j, h2⟩
      = (executeIncrease d (plan.get ⟨j, h⟩) (co (i + j))).1 := by
  induction plan generalizing i j with
  | nil => exact absurd h (by simp)
  | cons p rest ih =>
    cases j with
    | zero => simp [executeLoop]
    | succ j2 =>
      have h3 : j2 < rest.length := by simpa using h
      have h4 : j2 < (executeLoop d co (i + 1) rest).1.length := by
        rw [executeLoop_length]; exact h3
      have hidx : i + (j2 + 1) = (i + 1) + j2 := by omega
      calc (executeLoop d co i (p :: rest)).1.get ⟨j2 + 1, h2⟩
          = (executeLoop d co (i + 1) rest).1.get ⟨j2, h4⟩ := rfl
        _ = (executeIncrease d (rest.get ⟨j2, h3⟩) (co ((i + 1) + j2))).1 := ih (i + 1) j2 h3 h4
        _ = (executeIncrease d ((p :: rest).get ⟨j2 + 1, h⟩) (co (i + (j2 + 1)))).1 := by
            rw [hidx]; rfl

theorem executeLoop_dry_calls (co : ℕ → CallOutcome)
    (plan : List PlannedLoanIncrease) (i : ℕ) :
    (executeLoop true co i plan).2 = [] := by
  induction plan generalizing i with
  | nil => rfl
  | cons p rest ih => simp [executeLoop, executeIncrease, ih]

theorem executeLoop_dry_results (co : ℕ → CallOutcome)
    (plan : List PlannedLoanIncrease) (i : ℕ) :
    (executeLoop true co i plan).1
      = plan.map (fun p => ⟨p, true, none⟩) := by
  induction plan generalizing i with
  | nil => rfl
  | cons p rest ih => simp [executeLoop, executeIncrease, ih]

theorem executeLoop_all_ok_results (co : ℕ → CallOutcome)
    (plan : List PlannedLoanIncrease) (i : ℕ) (hok : ∀ j, i ≤ j → co j = .ok) :
    (executeLoop false co i plan).1
      = plan.map (fun p => ⟨p, true, none⟩) := by
  induction plan generalizing i with
  | nil => rfl
  | cons p rest ih =>
    have hco : co i = .ok := hok i le_rfl
    have ihh := ih (i + 1) (fun j hj => hok j (by omega))
    simp [executeLoop, executeIncrease, hco, ihh]

theorem executionErrorMessage_ne_empty (p : PlannedLoanIncrease) (m : String) :
    executionErrorMessage p m ≠ "" := by
  intro h
  have hlen := congrArg String.length h
  simp [executionErrorMessage, String.length_append] at hlen
  exact absurd hlen.1.1.1 (by decide)

theorem summaryCounts_all_ok (co : ℕ → CallOutcome)
    (plan : List PlannedLoanIncrease) (i : ℕ) (hok : ∀ j, i ≤ j → co j = .ok) :
    summaryCounts (executeLoop false co i plan).1
      = (plan.length, plan.length, []) := by
  rw [executeLoop_all_ok_results co plan i hok]
  induction plan with
  | nil => rfl
  | cons p rest ih =>
    simp only [summaryCounts, Prod.mk.injEq] at ih
    obtain ⟨h1, h2, h3⟩ := ih
    simp [summaryCounts, List.filter_cons, h1, h2, h3]

theorem summaryCounts_one_bad (co : ℕ → CallOutcome) (m : String)
    (plan : List PlannedLoanIncrease) (i k : ℕ) (hik : i ≤ k)
    (hk : k < i + plan.length) (hbad : co k = .throwErr m)
    (hok : ∀ j, j ≠ k → co j = .ok) :
    summaryCounts (executeLoop false co i plan).1
      = (plan.length, plan.length - 1,
         [executionErrorMessage (plan.get ⟨k - i, by omega⟩) m]) := by
  induction plan generalizing i with
  | nil => exact absurd hk (by simp; omega)
  | cons p rest ih =>
    by_cases hi : i = k
    · subst hi
      have hrest := summaryCounts_all_ok co rest (i + 1) (fun j hj => hok j (by omega))
      simp only [summaryCounts, Prod.mk.injEq] at hrest
      obtain ⟨h1, h2, h3⟩ := hrest
      have hmsg : jsOrString (some (executionErrorMessage p m)) "Unknown error"
          = executionErrorMessage p m := by
        simp [jsOrString, executionErrorMessage_ne_empty p m]
      simp [executeLoop, executeIncrease, hbad, summaryCounts, List.filter_cons,
        h1, h2, h3, hmsg]
    · have hco : co i = .ok := hok i hi
      have hik2 : i + 1 ≤ k := by omega
      have hk2 : k < (i + 1) + rest.length := by
        simp only [List.length_cons] at hk
        omega
      have ihh := ih (i + 1) hik2 hk2
      have hidx : k - i = (k - (i + 1)) + 1 := by omega
      simp only [summaryCounts, Prod.mk.injEq] at ihh
      obtain ⟨h1, h2, h3⟩ := ihh
      have hget : (p :: rest).get ⟨k - i, by omega⟩
          = rest.get ⟨k - (i + 1), by omega⟩ := by
        rw [show (⟨k - i, by omega⟩ : Fin (p :: rest).length)
            = ⟨(k - (i + 1)) + 1, by omega⟩ from Fin.ext hidx]
        rfl
      rw [hget]
      have hlen2 : 0 < rest.length := by omega
      simp [executeLoop, executeIncrease, hco, summaryCounts, List.filter_cons,
        h1, h2, h3]
      omega

/-! Planner fault-isolation and configuration-independence lemmas. -/

theorem planLoansLoop_append (subaccount : Subaccount) (config : LoanManagementConfig)
    (f : String → Option String) (l1 l2 : List OpenLoan)
    (acc : List PlannedLoanIncrease) :
    planLoansLoop subaccount config f acc (l1 ++ l2)
      = planLoansLoop subaccount config f (planLoansLoop subaccount config f acc l1) l2 := by
  induction l1 generalizing acc with
  | nil => rfl
  | cons loan rest ih =>
    simp only [List.cons_append, planLoansLoop]
    cases planLoan subaccount config f loan with
    | error e => exact ih acc
    | ok o =>
      cases o with
      | none => exact ih acc
      | some p => exact ih (acc ++ [p])

theorem planLoansLoop_dryRun (subaccount : Subaccount) (config : LoanManagementConfig)
    (b : Bool) (f : String → Option String) (loans : List OpenLoan)
    (acc : List PlannedLoanIncrease) :
    planLoansLoop subaccount
        ⟨config.minIncrementAmount, config.currencyDecimalPlaces, config.maxLoanRatio, b⟩
        f acc loans
      = planLoansLoop subaccount config f acc loans := by
  induction loans generalizing acc with
  | nil => rfl
  | cons loan rest ih =>
    have hp : planLoan subaccount
        ⟨config.minIncrementAmount, config.currencyDecimalPlaces, config.maxLoanRatio, b⟩
        f loan = planLoan subaccount config f loan := rfl
    simp only [planLoansLoop, hp]
    cases planLoan subaccount config f loan with
    | error e => exact ih acc
    | ok o =>
      cases o with
      | none => exact ih acc
      | some p => exact ih (acc ++ [p])

/-- C6: dry-run produces the identical planned increases (planning never
reads the dry-run flag) and the identical execution results — success flags
included — as a live run in which every mutating call succeeds, while
issuing zero mutating transport calls; each dry-run `executeIncrease`
synthesizes a success result without calling the transport. -/
theorem claim_C6_dry_run (plan : List PlannedLoanIncrease)
    (callOutcomes : ℕ → CallOutcome) (subaccount : Subaccount)
    (config : LoanManagementConfig) (balances : List SubaccountBalance)
    (loans : List OpenLoan) (b : Bool) :
    (executeSequentially true plan callOutcomes).2 = [] ∧
    (executeSequentially true plan callOutcomes).1
      = (executeSequentially false plan (fun _ => .ok)).1 ∧
    (∀ (p : PlannedLoanIncrease) (c : CallOutcome),
      executeIncrease true p c = (⟨p, true, none⟩, [])) ∧
    planSubaccountIncreases subaccount
        ⟨config.minIncrementAmount, config.currencyDecimalPlaces, config.maxLoanRatio, b⟩
        balances loans
      = planSubaccountIncreases subaccount config balances loans := by
  refine ⟨executeLoop_dry_calls callOutcomes plan 0, ?_, ?_, ?_⟩
  · rw [show executeSequentially true plan callOutcomes
        = executeLoop true callOutcomes 0 plan from rfl,
      executeLoop_dry_results,
      show executeSequentially false plan (fun _ => .ok)
        = executeLoop false (fun _ => .ok) 0 plan from rfl,
      executeLoop_all_ok_results (fun _ => .ok) plan 0 (fun _ _ => rfl)]
  · intro p c
    rfl
  · exact planLoansLoop_dryRun subaccount config b (buildAvailableBalances balances) loans []

/-- C7: with exactly one failing loan `k`, the executor still produces one
result per planned increase in order, the `k`-th is recorded as a failure
with the thrown message and all others succeed, and the rollup counts
`N` processed, `N-1` increased, and exactly that one error string; in the
planner, a loan whose planning throws contributes nothing and does not
disturb the plans of the loans around it. -/
theorem claim_C7_error_isolation (plan : List PlannedLoanIncrease)
    (callOutcomes : ℕ → CallOutcome) (k : ℕ) (m : String)
    (subaccount : Subaccount) (config : LoanManagementConfig)
    (availableBalances : String → Option String) (badLoan : OpenLoan) (e : String)
    (loans1 loans2 : List OpenLoan)
    (hk : k < plan.length) (hbad : callOutcomes k = .throwErr m)
    (hok : ∀ j, j ≠ k → callOutcomes j = .ok)
    (hplanbad : planLoan subaccount config availableBalances badLoan = .error e) :
    (executeSequentially false plan callOutcomes).1.length = plan.length ∧
    (∀ (j : ℕ) (h : j < plan.length),
      ((executeSequentially false plan callOutcomes).1.get
          ⟨j, by simp only [executeSequentially, executeLoop_length]; exact h⟩).plannedIncrease
        = plan.get ⟨j, h⟩) ∧
    (∀ (j : ℕ) (h : j < plan.length),
      ((executeSequentially false plan callOutcomes).1.get
          ⟨j, by simp only [executeSequentially, executeLoop_length]; exact h⟩).success = decide (j ≠ k)) ∧
    summaryCounts (executeSequentially false plan callOutcomes).1
      = (plan.length, plan.length - 1,
         [executionErrorMessage (plan.get ⟨k, hk⟩) m]) ∧
    planLoansLoop subaccount config availableBalances [] (loans1 ++ badLoan :: loans2)
      = planLoansLoop subaccount config availableBalances [] (loans1 ++ loans2) := by
  refine ⟨executeLoop_length false callOutcomes plan 0, ?_, ?_, ?_, ?_⟩
  · intro j h
    show ((executeLoop false callOutcomes 0 plan).1.get ⟨j, _⟩).plannedIncrease
      = plan.get ⟨j, h⟩
    rw [executeLoop_get false callOutcomes plan 0 j h, executeIncrease_plannedIncrease]
  · intro j h
    show ((executeLoop false callOutcomes 0 plan).1.get ⟨j, _⟩).success = decide (j ≠ k)
    rw [executeLoop_get false callOutcomes plan 0 j h]
    by_cases hj : j = k
    · subst hj
      rw [show (0 : ℕ) + j = j from by omega, hbad]
      simp [executeIncrease]
    · rw [show (0 : ℕ) + j = j from by omega, hok j hj]
      simp [executeIncrease, hj]
  · have h := summaryCounts_one_bad callOutcomes m plan 0 k (by omega) (by omega) hbad hok
    rw [show executeSequentially false plan callOutcomes
        = executeLoop false callOutcomes 0 plan from rfl, h]
    rfl
  · rw [planLoansLoop_append, planLoansLoop_append]
    simp only [planLoansLoop, hplanbad]

/-- C7 witness: a concrete three-loan plan whose second execution throws,
and a concrete subaccount where the middle loan's planning throws (its
total amount fails to parse). -/
theorem claim_C7_witness :
    summaryCounts (executeSequentially false
        [⟨"S1", "Sub One", "L1", "ZAR", "500", "80", "580"⟩,
         ⟨"S1", "Sub One", "L2", "ZAR", "200", "10", "210"⟩,
         ⟨"S1", "Sub One", "L3", "BTC", "1", "0.5", "1.5"⟩]
        (fun j => if j = 1 then .throwErr "boom" else .ok)).1
      = (3, 2, ["Failed to execute increase for loan L2: boom"]) ∧
    planLoansLoop ⟨"S1", "Sub One"⟩ ⟨[("ZAR", "1")], [("ZAR", 2)], 1, false⟩
        (buildAvailableBalances [⟨"ZAR", "100", "0", "100"⟩]) []
        ([⟨"L1", "ZAR", "500", "0"⟩] ++ ⟨"LBAD", "ZAR", "nope", "0"⟩ :: [⟨"L3", "ZAR", "700", "0"⟩])
      = planLoansLoop ⟨"S1", "Sub One"⟩ ⟨[("ZAR", "1")], [("ZAR", 2)], 1, false⟩
        (buildAvailableBalances [⟨"ZAR", "100", "0", "100"⟩]) []
        ([⟨"L1", "ZAR", "500", "0"⟩] ++ [⟨"L3", "ZAR", "700", "0"⟩]) := by
  have h := claim_C7_error_isolation
    [⟨"S1", "Sub One", "L1", "ZAR", "500", "80", "580"⟩,
     ⟨"S1", "Sub One", "L2", "ZAR", "200", "10", "210"⟩,
     ⟨"S1", "Sub One", "L3", "BTC", "1", "0.5", "1.5"⟩]
    (fun j => if j = 1 then .throwErr "boom" else .ok) 1 "boom"
    ⟨"S1", "Sub One"⟩ ⟨[("ZAR", "1")], [("ZAR", 2)], 1, false⟩
    (buildAvailableBalances [⟨"ZAR", "100", "0", "100"⟩])
    ⟨"LBAD", "ZAR", "nope", "0"⟩ "Invalid decimal value: nope"
    [⟨"L1", "ZAR", "500", "0"⟩] [⟨"L3", "ZAR", "700", "0"⟩]
    (by decide) (by decide) (fun j hj => by simp [hj]) (by decide)
  exact ⟨h.2.2.2.1, h.2.2.2.2⟩

/-! Helper lemmas about the transport retry loop. -/

theorem retryLoop_ok {α : Type} {outcomes : ℕ → RequestOutcome α} {a : ℕ} {v : α}
    (method path body : String) (subId : Option String) (now sendTime : ℕ → ℤ)
    (r : ℕ) (h : makeRequest (outcomes a) = .ok v) :
    retryLoop method path body subId outcomes now sendTime a r
      = ⟨.ok v, [], [signRequest method path body subId (sendTime a)]⟩ := by
  unfold retryLoop
  rw [h]

theorem retryLoop_rateLimited {α : Type} {outcomes : ℕ → RequestOutcome α} {a : ℕ}
    {info : RateLimitInfo} (method path body : String) (subId : Option String)
    (now sendTime : ℕ → ℤ) (r : ℕ)
    (h : makeRequest (outcomes a) = .error (.rateLimited info)) :
    retryLoop method path body subId outcomes now sendTime a (r + 1)
      = ⟨(retryLoop method path body subId outcomes now sendTime (a + 1) r).result,
         computeWaitTime info (now a) a
           :: (retryLoop method path body subId outcomes now sendTime (a + 1) r).waits,
         signRequest method path body subId (sendTime a)
           :: (retryLoop method path body subId outcomes now sendTime (a + 1) r).requests⟩ := by
  conv_lhs => unfold retryLoop
  rw [h]

theorem retryLoop_stop {α : Type} {outcomes : ℕ → RequestOutcome α} {a : ℕ}
    {e : ValrError} (method path body : String) (subId : Option String)
    (now sendTime : ℕ → ℤ) (r : ℕ) (h : makeRequest (outcomes a) = .error e)
    (hnr : isRetryableRateLimit e = false) :
    retryLoop method path body subId outcomes now sendTime a r
      = ⟨.error e, [], [signRequest method path body subId (sendTime a)]⟩ := by
  cases e <;> simp_all [retryLoop, isRetryableRateLimit]

theorem retryLoop_exhausted {α : Type} {outcomes : ℕ → RequestOutcome α} {a : ℕ}
    {info : RateLimitInfo} (method path body : String) (subId : Option String)
    (now sendTime : ℕ → ℤ)
    (h : makeRequest (outcomes a) = .error (.rateLimited info)) :
    retryLoop method path body subId outcomes now sendTime a 0
      = ⟨.error (.rateLimited info), [],
         [signRequest method path body subId (sendTime a)]⟩ := by
  unfold retryLoop
  rw [h]

theorem classifyResponse_429 (resp : HttpResponse) (h : resp.status = 429) :
    classifyResponse resp = .rateLimited
      ⟨parseHeaderInt resp.retryAfterHeader, parseHeaderInt resp.rateLimitResetHeader,
       parseHeaderInt resp.rateLimitRemainingHeader⟩ := by
  simp [classifyResponse, h]

theorem classifyResponse_auth (resp : HttpResponse)
    (h : resp.status = 401 ∨ resp.status = 403) (hd : resp.data = none) :
    classifyResponse resp = .unauthorized := by
  have h429 : ¬ resp.status = 429 := by rcases h with h | h <;> omega
  simp [classifyResponse, h429, hd, h]

/-- Only a 429 response ever classifies as a retryable rate-limit error:
on every other status the classification is `apiCode`, `unauthorized`,
`invalidRequest` or `serviceUnavailable`, none of which the retry loop
retries. -/
theorem classifyResponse_not_rateLimited (resp : HttpResponse)
    (h : ¬ resp.status = 429) :
    isRetryableRateLimit (classifyResponse resp) = false := by
  unfold classifyResponse
  rw [if_neg h]
  cases resp.data with
  | none =>
    by_cases ha : resp.status = 401 ∨ resp.status = 403 <;>
      by_cases hc : 400 ≤ resp.status ∧ resp.status < 500 <;>
      simp [ha, hc, isRetryableRateLimit]
  | some responseBody =>
    by_cases hcode : hasTruthyCode responseBody = true <;>
      by_cases ha : resp.status = 401 ∨ resp.status = 403 <;>
      by_cases hc : 400 ≤ resp.status ∧ resp.status < 500 <;>
      simp [hcode, ha, hc, isRetryableRateLimit]

/-- C5 counterexample: a request that fails with HTTP 500 on every attempt
is not retried at all — a single attempt, no backoff waits — and the same
holds for a network failure; the claim's three retries with exponential
backoff never happen. -/
theorem claim_C5_counterexample :
    (makeRequestWithRetry "GET" "/v1/account/balances" "" none
        (fun _ => (RequestOutcome.httpError ⟨500, none, none, none, none⟩ : RequestOutcome Unit))
        (fun _ => 0) (fun _ => 0) 3).requests.length = 1 ∧
    (makeRequestWithRetry "GET" "/v1/account/balances" "" none
        (fun _ => (RequestOutcome.httpError ⟨500, none, none, none, none⟩ : RequestOutcome Unit))
        (fun _ => 0) (fun _ => 0) 3).waits = [] ∧
    (makeRequestWithRetry "GET" "/v1/account/balances" "" none
        (fun _ => (RequestOutcome.httpError ⟨500, none, none, none, none⟩ : RequestOutcome Unit))
        (fun _ => 0) (fun _ => 0) 3).result = .error .serviceUnavailable ∧
    (makeRequestWithRetry "GET" "/v1/account/balances" "" none
        (fun _ => (RequestOutcome.networkFailure : RequestOutcome Unit))
        (fun _ => 0) (fun _ => 0) 3).requests.length = 1 ∧
    (makeRequestWithRetry "GET" "/v1/account/balances" "" none
        (fun _ => (RequestOutcome.networkFailure : RequestOutcome Unit))
        (fun _ => 0) (fun _ => 0) 3).waits = [] :=
  ⟨by decide, by decide, by decide, by decide, by decide⟩

/-- C5 (amended): a request failing with a 5xx response or a network
failure is never retried: the loop breaks on any non-rate-limit error, so
exactly one attempt is made, no backoff wait is performed, and that first
error surfaces to the caller unchanged. -/
theorem claim_C5_no_retry_on_5xx {α : Type} (method path body : String)
    (subId : Option String) (outcomes : ℕ → RequestOutcome α)
    (now sendTime : ℕ → ℤ) (maxRetries : ℕ) (e : ValrError)
    (h0 : makeRequest (outcomes 0) = .error e)
    (hnr : isRetryableRateLimit e = false) :
    makeRequestWithRetry method path body subId outcomes now sendTime maxRetries
      = ⟨.error e, [], [signRequest method path body subId (sendTime 0)]⟩ :=
  retryLoop_stop method path body subId now sendTime maxRetries h0 hnr

/-- C5 witness: a network failure on the first attempt surfaces after one
attempt with no waits. -/
theorem claim_C5_witness :
    makeRequestWithRetry "GET" "/v1/loans/open" "" none
        (fun _ => (RequestOutcome.networkFailure : RequestOutcome Unit))
        (fun _ => 0) (fun _ => 7) 3
      = ⟨.error .networkError, [], [signRequest "GET" "/v1/loans/open" "" none 7]⟩ :=
  claim_C5_no_retry_on_5xx "GET" "/v1/loans/open" "" none
    (fun _ => (RequestOutcome.networkFailure : RequestOutcome Unit))
    (fun _ => 0) (fun _ => 7) 3 .networkError rfl rfl

/-- C4 counterexample: a 429 carrying `Retry-After: 0` — a header that is
present and parses to 0 seconds — is not used: JS truthiness treats the
parsed 0 as absent, and the wait falls through to exponential backoff
(1000 ms), not the claimed `0 × 1000` ms. -/
theorem claim_C4_counterexample :
    classifyResponse ⟨429, none, some "0", none, none⟩
      = .rateLimited ⟨some 0, none, none⟩ ∧
    computeWaitTime ⟨some 0, none, none⟩ 0 0 = 1000 ∧
    (makeRequestWithRetry "GET" "/v1/account/subaccounts" "" none
        (fun i => if i = 0 then .httpError ⟨429, none, some "0", none, none⟩
                  else (RequestOutcome.ok () : RequestOutcome Unit))
        (fun _ => 0) (fun _ => 0) 3).waits = [1000] ∧
    (1000 : ℤ) ≠ 0 * 1000 :=
  ⟨by decide, by decide, by decide, by decide⟩

/-- C4 (amended): on a 429 with retries left the wait is computed in
priority order — the parsed `Retry-After` seconds when truthy (present and
nonzero), else the time to the rate-limit reset clamped below by 1 s, else
exponential backoff `1 s · 2^attempt` capped at 30 s — the transport then
sleeps and retries the same logical request signed with a fresh timestamp;
a 401/403 is never retried; exhausting the budget surfaces the last
error. -/
theorem claim_C4_rate_limit_policy {α : Type} (method path body : String)
    (subId : Option String) (outcomes : ℕ → RequestOutcome α)
    (now sendTime : ℕ → ℤ) (resp : HttpResponse) (v : α)
    (ra rt : ℤ) (infos : ℕ → RateLimitInfo) :
    (∀ (info : RateLimitInfo) (t : ℤ) (i : ℕ),
      (jsTruthy info.retryAfter = true →
        computeWaitTime info t i = info.retryAfter.getD 0 * 1000) ∧
      (jsTruthy info.retryAfter = false → jsTruthy info.rateLimitReset = true →
        computeWaitTime info t i = max (info.rateLimitReset.getD 0 * 1000 - t) 1000) ∧
      (jsTruthy info.retryAfter = false → jsTruthy info.rateLimitReset = false →
        computeWaitTime info t i = min (1000 * 2 ^ i) 30000)) ∧
    (resp.status = 429 → parseHeaderInt resp.retryAfterHeader = some ra → ra ≠ 0 →
      outcomes 0 = .httpError resp → outcomes 1 = .ok v →
      makeRequestWithRetry method path body subId outcomes now sendTime
          DEFAULT_RETRY_ATTEMPTS
        = ⟨.ok v, [ra * 1000],
           [signRequest method path body subId (sendTime 0),
            signRequest method path body subId (sendTime 1)]⟩) ∧
    (resp.status = 429 → parseHeaderInt resp.retryAfterHeader = none →
      parseHeaderInt resp.rateLimitResetHeader = some rt → rt ≠ 0 →
      outcomes 0 = .httpError resp → outcomes 1 = .ok v →
      makeRequestWithRetry method path body subId outcomes now sendTime
          DEFAULT_RETRY_ATTEMPTS
        = ⟨.ok v, [max (rt * 1000 - now 0) 1000],
           [signRequest method path body subId (sendTime 0),
            signRequest method path body subId (sendTime 1)]⟩) ∧
    (resp.status = 401 ∨ resp.status = 403 →
      outcomes 0 = .httpError resp →
      makeRequestWithRetry method path body subId outcomes now sendTime
          DEFAULT_RETRY_ATTEMPTS
        = ⟨.error (classifyResponse resp), [],
           [signRequest method path body subId (sendTime 0)]⟩) ∧
    (resp.status = 401 ∨ resp.status = 403 → resp.data = none →
      classifyResponse resp = .unauthorized) ∧
    ((∀ i, makeRequest (outcomes i) = .error (.rateLimited (infos i))) →
      makeRequestWithRetry method path body subId outcomes now sendTime
          DEFAULT_RETRY_ATTEMPTS
        = ⟨.error (.rateLimited (infos 3)),
           [computeWaitTime (infos 0) (now 0) 0, computeWaitTime (infos 1) (now 1) 1,
            computeWaitTime (infos 2) (now 2) 2],
           [signRequest method path body subId (sendTime 0),
            signRequest method path body subId (sendTime 1),
            signRequest method path body subId (sendTime 2),
            signRequest method path body subId (sendTime 3)]⟩) := by
  refine ⟨?_, ?_, ?_, ?_, ?_, ?_⟩
  · intro info t i
    refine ⟨fun h => by simp [computeWaitTime, h], ?_, ?_⟩
    · intro hf ht
      simp [computeWaitTime, hf, ht, MIN_RETRY_DELAY_MS]
    · intro hf ht
      simp [computeWaitTime, hf, ht, MIN_RETRY_DELAY_MS, MAX_RETRY_DELAY_MS]
  · intro h429 hra hra0 h0 h1
    have hm0 : makeRequest (outcomes 0) = .error (.rateLimited
        ⟨parseHeaderInt resp.retryAfterHeader, parseHeaderInt resp.rateLimitResetHeader,
         parseHeaderInt resp.rateLimitRemainingHeader⟩) := by
      rw [h0]
      show Except.error (classifyResponse resp) = _
      rw [classifyResponse_429 resp h429]
    have hm1 : makeRequest (outcomes 1) = .ok v := by rw [h1]; rfl
    show retryLoop method path body subId outcomes now sendTime 0 (2 + 1) = _
    rw [retryLoop_rateLimited method path body subId now sendTime 2 hm0,
      retryLoop_ok method path body subId now sendTime 2 hm1]
    simp [computeWaitTime, hra, jsTruthy, hra0]
  · intro h429 hra hrt hrt0 h0 h1
    have hm0 : makeRequest (outcomes 0) = .error (.rateLimited
        ⟨parseHeaderInt resp.retryAfterHeader, parseHeaderInt resp.rateLimitResetHeader,
         parseHeaderInt resp.rateLimitRemainingHeader⟩) := by
      rw [h0]
      show Except.error (classifyResponse resp) = _
      rw [classifyResponse_429 resp h429]
    have hm1 : makeRequest (outcomes 1) = .ok v := by rw [h1]; rfl
    show retryLoop method path body subId outcomes now sendTime 0 (2 + 1) = _
    rw [retryLoop_rateLimited method path body subId now sendTime 2 hm0,
      retryLoop_ok method path body subId now sendTime 2 hm1]
    simp [computeWaitTime, hra, hrt, jsTruthy, hrt0, MIN_RETRY_DELAY_MS]
  · intro hauth h0
    have h429 : ¬ resp.status = 429 := by rcases hauth with h | h <;> omega
    have hm0 : makeRequest (outcomes 0) = .error (classifyResponse resp) := by
      rw [h0]
      rfl
    exact retryLoop_stop method path body subId now sendTime
      DEFAULT_RETRY_ATTEMPTS hm0 (classifyResponse_not_rateLimited resp h429)
  · intro hauth hd
    exact classifyResponse_auth resp hauth hd
  · intro hall
    show retryLoop method path body subId outcomes now sendTime 0 3 = _
    simp [retryLoop, hall]

/-- C4 witness: a 429 carrying `Retry-After: 2` causes exactly one
2000 ms wait and one re-signed retry with the next attempt's fresh
timestamp; the retried request has the same method, path and body. -/
theorem claim_C4_witness :
    makeRequestWithRetry "GET" "/v1/account/subaccounts" "" none
        (fun i => if i = 0 then .httpError ⟨429, none, some "2", none, none⟩
                  else (RequestOutcome.ok () : RequestOutcome Unit))
        (fun _ => 100) (fun i => 1000 + i) DEFAULT_RETRY_ATTEMPTS
      = ⟨.ok (), [2000],
         [signRequest "GET" "/v1/account/subaccounts" "" none 1000,
          signRequest "GET" "/v1/account/subaccounts" "" none 1001]⟩ := by
  have h := (claim_C4_rate_limit_policy "GET" "/v1/account/subaccounts" "" none
      (fun i => if i = 0 then .httpError ⟨429, none, some "2", none, none⟩
                else (RequestOutcome.ok () : RequestOutcome Unit))
      (fun _ => 100) (fun i => 1000 + i) ⟨429, none, some "2", none, none⟩ () 2 0
      (fun _ => ⟨none, none, none⟩)).2.1
    rfl (by decide) (by decide) (by decide) (by decide)
  norm_num at h
  exact h

/-- C8 counterexample: the client in `src/utils/valr-client.ts` logs the
raw response body (`data: error.response?.data`) for a failed request, so
the logged record does not contain only the method, path, status and a
had-body flag. -/
theorem claim_C8_counterexample :
    legacyFailureLog "GET" "/v1/account/balances"
        (RequestOutcome.httpError
          ⟨500, some ⟨none, none, "raw body with account details"⟩, none, none, none⟩
          : RequestOutcome Unit)
        "Request failed with status code 500"
      = some ⟨"GET", "/v1/account/balances", some 500,
              some ⟨none, none, "raw body with account details"⟩,
              "Request failed with status code 500"⟩ := by decide

/-- C8 (amended): the retry-capable client's failure log consists of
exactly method, endpoint, status, a boolean had-body flag, the caught
error's message, and a timestamp; it depends on the response body only
through its presence; the propagated error classification never reads the
body beyond its `code` and `message` fields; and a body-less failure
propagates one of the four fixed classification strings. -/
theorem claim_C8_sanitized_logging {α : Type}
    (method endpoint axiosMessage timestamp : String) (status : ℕ)
    (b1 b2 : Option ResponseBody) (h1 h2 h3 g1 g2 g3 : Option String)
    (code : Option ℤ) (msgField : Option String) (raw1 raw2 : String)
    (resp : HttpResponse) (hb : b1.isSome = b2.isSome) :
    sanitizedFailureLog method endpoint
        (RequestOutcome.httpError ⟨status, b1, h1, h2, h3⟩ : RequestOutcome α)
        axiosMessage timestamp
      = some ⟨method, endpoint, some status, b1.isSome, axiosMessage, timestamp⟩ ∧
    sanitizedFailureLog method endpoint
        (RequestOutcome.httpError ⟨status, b1, h1, h2, h3⟩ : RequestOutcome α)
        axiosMessage timestamp
      = sanitizedFailureLog method endpoint
        (RequestOutcome.httpError ⟨status, b2, g1, g2, g3⟩ : RequestOutcome α)
        axiosMessage timestamp ∧
    classifyResponse ⟨status, some ⟨code, msgField, raw1⟩, h1, h2, h3⟩
      = classifyResponse ⟨status, some ⟨code, msgField, raw2⟩, h1, h2, h3⟩ ∧
    (resp.data = none →
      errorMessage (classifyResponse resp)
        ∈ ["VALR API Error: Rate limit exceeded",
           "VALR API Error: Unauthorized access",
           "VALR API Error: Invalid request",
           "VALR API Error: Service unavailable"]) := by
  refine ⟨rfl, by simp [sanitizedFailureLog, hb], rfl, ?_⟩
  intro hd
  by_cases hs : resp.status = 429
  · simp [classifyResponse, hs, errorMessage]
  · by_cases ha : resp.status = 401 ∨ resp.status = 403
    · simp [classifyResponse, hs, hd, ha, errorMessage]
    · by_cases hc : 400 ≤ resp.status ∧ resp.status < 500
      · simp [classifyResponse, hs, hd, ha, hc, errorMessage]
      · simp [classifyResponse, hs, hd, ha, hc, errorMessage]

/-- C8 witness: two 500 responses whose bodies differ in content produce
the identical sanitized log record. -/
theorem claim_C8_witness :
    sanitizedFailureLog "GET" "/v1/account/balances"
        (RequestOutcome.httpError
          ⟨500, some ⟨some 1, some "internal detail A", "raw A"⟩, none, none, none⟩
          : RequestOutcome Unit)
        "Request failed with status code 500" "2025-01-01T00:00:00.000Z"
      = sanitizedFailureLog "GET" "/v1/account/balances"
        (RequestOutcome.httpError
          ⟨500, some ⟨some 9, some "internal detail B", "raw B"⟩, none, none, none⟩
          : RequestOutcome Unit)
        "Request failed with status code 500" "2025-01-01T00:00:00.000Z" :=
  (claim_C8_sanitized_logging "GET" "/v1/account/balances"
    "Request failed with status code 500" "2025-01-01T00:00:00.000Z" 500
    (some ⟨some 1, some "internal detail A", "raw A"⟩)
    (some ⟨some 9, some "internal detail B", "raw B"⟩)
    none none none none none none (some 1) (some "m") "r1" "r2"
    ⟨500, none, none, none, none⟩ rfl).2.1

/-- C1: for an open loan with parsed available balance `b`, minimum
increment `m` and ratio `r ∈ [0,1]`: the code's candidate increase `c` is
exactly `min(b, round(b·r))` — the ratio caps the available balance (the
loan total is ignored entirely by `calculateIncrease`), the candidate never
exceeds `b`, and `r = 1` gives `c = b` exactly; the planner emits no
`PlannedIncrease` when `b < m` or when `c < m`, and otherwise emits exactly
one, whose increase is the truncation of the candidate. -/
theorem claim_C1_planner (subaccount : Subaccount) (config : LoanManagementConfig)
    (availableBalances : String → Option String) (loan : OpenLoan)
    (b m cur c : Decimal)
    (hA : parseFinancialAmount (jsOrString (availableBalances loan.currency) "0") 8 = .ok b)
    (hM : parseFinancialAmount
      (jsOrString (recordGet config.minIncrementAmount loan.currency) "0") 8 = .ok m)
    (hC : parseFinancialAmount loan.totalAmount 8 = .ok cur)
    (hc : calculateIncrease loan.totalAmount
      (jsOrString (availableBalances loan.currency) "0") config.maxLoanRatio 8 = .ok c)
    (_hr0 : 0 ≤ config.maxLoanRatio) (_hr1 : config.maxLoanRatio ≤ 1) :
    c.value = min b.value (jsRound ((b.value : ℚ) * config.maxLoanRatio)) ∧
    c.value ≤ b.value ∧
    c.scale = 8 ∧
    (∀ other : String,
      calculateIncrease other (jsOrString (availableBalances loan.currency) "0")
        config.maxLoanRatio 8 = .ok c) ∧
    (config.maxLoanRatio = 1 → c = b) ∧
    (b.value < m.value → planLoan subaccount config availableBalances loan = .ok none) ∧
    (¬ b.value < m.value → c.value < m.value →
      planLoan subaccount config availableBalances loan = .ok none) ∧
    (¬ b.value < m.value → ¬ c.value < m.value →
      planLoan subaccount config availableBalances loan = .ok (some
        { subaccountId := subaccount.id
          subaccountLabel := subaccount.label
          loanId := loan.loanId
          currency := loan.currency
          currentAmount := cur.toString
          increaseAmount := (c.truncateToDecimalPlaces
            (jsOrNat (recordGet config.currencyDecimalPlaces loan.currency) 8)).toString
          newAmount := (Decimal.mk (cur.value + (c.truncateToDecimalPlaces
            (jsOrNat (recordGet config.currencyDecimalPlaces loan.currency) 8)).value)
            8).toString })) := by
  have hb8 : b.scale = 8 := parseFinancialAmount_ok_scale hA
  have hm8 : m.scale = 8 := parseFinancialAmount_ok_scale hM
  have hcur8 : cur.scale = 8 := parseFinancialAmount_ok_scale hC
  have hcval : c = if b.value < (Decimal.multiply b config.maxLoanRatio).value
      then b else Decimal.multiply b config.maxLoanRatio := by
    have h := hc
    unfold calculateIncrease at h
    rw [hA] at h
    by_cases hbj : b.value < (Decimal.multiply b config.maxLoanRatio).value
    · rw [if_pos hbj]
      simp only [Decimal.isLessThan, Decimal.multiply] at h hbj
      simp [hbj] at h
      exact h.symm
    · rw [if_neg hbj]
      simp only [Decimal.isLessThan, Decimal.multiply] at h hbj
      simp [hbj] at h
      exact h.symm
  have hc8 : c.scale = 8 := by
    rw [hcval]
    by_cases hbj : b.value < (Decimal.multiply b config.maxLoanRatio).value
    · rw [if_pos hbj, hb8]
    · rw [if_neg hbj]
      show b.scale = 8
      exact hb8
  have hj : (Decimal.multiply b config.maxLoanRatio).value
      = jsRound ((b.value : ℚ) * config.maxLoanRatio) := rfl
  have hmin : c.value = min b.value (jsRound ((b.value : ℚ) * config.maxLoanRatio)) := by
    rw [hcval]
    by_cases hbj : b.value < (Decimal.multiply b config.maxLoanRatio).value
    · rw [if_pos hbj]
      rw [hj] at hbj
      omega
    · rw [if_neg hbj, hj]
      rw [hj] at hbj
      omega
  refine ⟨hmin, by rw [hmin]; exact min_le_left _ _, hc8, ?_, ?_, ?_, ?_, ?_⟩
  · intro other
    rw [show calculateIncrease other (jsOrString (availableBalances loan.currency) "0")
        config.maxLoanRatio 8
      = calculateIncrease loan.totalAmount (jsOrString (availableBalances loan.currency) "0")
        config.maxLoanRatio 8 from rfl, hc]
  · intro hr
    have hmul : Decimal.multiply b config.maxLoanRatio = b := by
      have : (Decimal.multiply b config.maxLoanRatio).value = b.value := by
        rw [hj, hr, mul_one, jsRound_intCast]
      cases b
      simp_all [Decimal.multiply]
    rw [hcval, hmul]
    simp
  · intro hlt
    simp only [planLoan]
    rw [hA, hM, hC]
    simp [Decimal.isLessThan, hb8, hm8, hlt]
  · intro hge hlt2
    simp only [planLoan]
    rw [hA, hM, hC, hc]
    simp [Decimal.isLessThan, hb8, hm8, hc8, hge, hlt2]
  · intro hge hge2
    simp only [planLoan]
    rw [hA, hM, hC, hc]
    have htrunc8 : (c.truncateToDecimalPlaces
        (jsOrNat (recordGet config.currencyDecimalPlaces loan.currency) 8)).scale = c.scale := rfl
    simp [Decimal.isLessThan, Decimal.add, hb8, hm8, hc8, hcur8, hge, hge2, htrunc8]

/-- C1 witness: the spec's end-to-end scenario — balance `ZAR 100`, loan
total `500`, ratio `0.8`, minimum increment `1` — plans an increase of `80`
to a new amount of `580`. -/
theorem claim_C1_witness :
    planLoan ⟨"S1", "Sub One"⟩ ⟨[("ZAR", "1")], [("ZAR", 2)], 4/5, false⟩
        (buildAvailableBalances [⟨"ZAR", "100", "0", "100"⟩]) ⟨"L1", "ZAR", "500", "0"⟩
      = .ok (some ⟨"S1", "Sub One", "L1", "ZAR", "500", "80", "580"⟩) := by
  have h := (claim_C1_planner ⟨"S1", "Sub One"⟩ ⟨[("ZAR", "1")], [("ZAR", 2)], 4/5, false⟩
      (buildAvailableBalances [⟨"ZAR", "100", "0", "100"⟩]) ⟨"L1", "ZAR", "500", "0"⟩
      ⟨10000000000, 8⟩ ⟨100000000, 8⟩ ⟨50000000000, 8⟩ ⟨8000000000, 8⟩
      (by decide) (by decide) (by decide) (by decide) (by norm_num) (by norm_num)
    ).2.2.2.2.2.2.2 (by decide) (by decide)
  rw [h]
  decide

end Valr
